import Mathlib

/-!
Verification development for the bundle validator (`validate.go`).

The Go source is shallowly embedded: each Go function becomes a Lean
definition with the same name where possible.  Machine integers of the
source (`int64` device numbers) are modelled as `Int`; only comparisons
are performed on them, so no overflow arithmetic arises.  Fatal
`logrus.Fatalf` exits are modelled by `Except String Unit` (`.error msg`
is the first fatal diagnostic, `.ok ()` means the check passed).
Filesystem probes are modelled by an explicit `FSState` record.
Go `map` values reaching the validator are modelled as association
lists in a fixed iteration order.
-/

/-! ## Character classes and string helpers (Go `strings` / `unicode`)

`unicode.IsLetter` / `unicode.IsDigit` / `unicode.IsSpace` are modelled
on their ASCII / Latin-1 fragments; every string any claim touches is
ASCII, where the model is exact. -/

/-- Go `unicode.IsSpace`, restricted to the Latin-1 range the Go
function special-cases. -/
def isGoSpace (c : Char) : Bool :=
  c == ' ' || c == '\t' || c == '\n' || c == '\x0b' || c == '\x0c' ||
  c == '\r' || c == '\x85' || c == '\xa0'

/-- The character test inside `envValid`:
`unicode.IsDigit(ch) || unicode.IsLetter(ch) || ch == lowline`. -/
def isEnvChar (c : Char) : Bool :=
  c.isDigit || c.isAlpha || c == '_'

/-- Go `strings.Split(s, sep)` for a one-character separator, on the
character list of the string. -/
def splitChars (sep : Char) : List Char → List (List Char)
  | [] => [[]]
  | c :: cs =>
    match splitChars sep cs with
    | [] => [[]]
    | h :: t => if c == sep then [] :: h :: t else (c :: h) :: t

/-- Go `strings.TrimSpace`, on character lists. -/
def goTrimSpace (l : List Char) : List Char :=
  ((l.dropWhile isGoSpace).reverse.dropWhile isGoSpace).reverse

/-- Go `strings.HasPrefix pre s`, on character lists:
`isPrefixChars pre s`. -/
def isPrefixChars : List Char → List Char → Bool
  | [], _ => true
  | _ :: _, [] => false
  | p :: ps, c :: cs => p == c && isPrefixChars ps cs

/-- Go `strings.HasPrefix(s, pre)`. -/
def goHasPfx (s pre : String) : Bool :=
  isPrefixChars pre.toList s.toList

/-- Go `path.IsAbs` / `filepath.IsAbs` (unix): non-empty and starting
with a slash. -/
def pathIsAbs (p : String) : Bool :=
  match p.toList with
  | '/' :: _ => true
  | _ => false

/-! ## `envValid` (validate.go:355-369)

The `logrus.Warnf` advisory for a key beginning with a digit is a pure
side effect (it never changes the verdict) and is not modelled. -/

/-- `envValid` from validate.go: split on the equals sign; fewer than
two pieces fail; every character of the whitespace-trimmed first piece
must be a letter, digit or underscore. -/
def envValid (env : String) : Bool :=
  let items := splitChars '=' env.toList
  if items.length < 2 then false
  else (goTrimSpace (items.headD [])).all isEnvChar

example : envValid ("PATH=/bin") = true := by decide
example : envValid ("A=B=C") = true := by decide
example : envValid ("novalue") = false := by decide
example : envValid ("=value") = true := by decide
example : envValid ("a b=c") = false := by decide
example : envValid (" a =c") = true := by decide

/-! ## Whitelist tables -/

/-- `defaultRlimits` (validate.go:28-45). -/
def defaultRlimits : List String :=
  ["RLIMIT_CPU", "RLIMIT_FSIZE", "RLIMIT_DATA", "RLIMIT_STACK",
   "RLIMIT_CORE", "RLIMIT_RSS", "RLIMIT_NPROC", "RLIMIT_NOFILE",
   "RLIMIT_MEMLOCK", "RLIMIT_AS", "RLIMIT_LOCKS", "RLIMIT_SIGPENDING",
   "RLIMIT_MSGQUEUE", "RLIMIT_NICE", "RLIMIT_RTPRIO", "RLIMIT_RTTIME"]

/-- Modelled from the spec: the capability whitelist (`defaultCaps`,
defined in a source file of this repository that is not available;
the spec calls for the capability names of man capabilities(7)). -/
def defaultCaps : List String :=
  ["CAP_CHOWN", "CAP_DAC_OVERRIDE", "CAP_DAC_READ_SEARCH", "CAP_FOWNER",
   "CAP_FSETID", "CAP_KILL", "CAP_SETGID", "CAP_SETUID", "CAP_SETPCAP",
   "CAP_LINUX_IMMUTABLE", "CAP_NET_BIND_SERVICE", "CAP_NET_BROADCAST",
   "CAP_NET_ADMIN", "CAP_NET_RAW", "CAP_IPC_LOCK", "CAP_IPC_OWNER",
   "CAP_SYS_MODULE", "CAP_SYS_RAWIO", "CAP_SYS_CHROOT", "CAP_SYS_PTRACE",
   "CAP_SYS_PACCT", "CAP_SYS_ADMIN", "CAP_SYS_BOOT", "CAP_SYS_NICE",
   "CAP_SYS_RESOURCE", "CAP_SYS_TIME", "CAP_SYS_TTY_CONFIG", "CAP_MKNOD",
   "CAP_LEASE", "CAP_AUDIT_WRITE", "CAP_AUDIT_CONTROL", "CAP_SETFCAP",
   "CAP_MAC_OVERRIDE", "CAP_MAC_ADMIN", "CAP_SYSLOG", "CAP_WAKE_ALARM",
   "CAP_BLOCK_SUSPEND", "CAP_AUDIT_READ"]

/-- `capValid` (validate.go:371-378). -/
def capValid (capability : String) : Bool :=
  defaultCaps.contains capability

/-- `rlimitValid` (validate.go:380-387). -/
def rlimitValid (rlimit : String) : Bool :=
  defaultRlimits.contains rlimit

/-! ## Namespace and device validity (validate.go:389-423) -/

/-- Namespace type constants of the runtime-spec package. -/
def PIDNamespace : String := "pid"

def NetworkNamespace : String := "network"

def MountNamespace : String := "mount"

def IPCNamespace : String := "ipc"

def UTSNamespace : String := "uts"

def UserNamespace : String := "user"

def CgroupNamespace : String := "cgroup"

/-- A `Linux.Namespaces` entry: `{Type, Path}`. -/
structure LinuxNamespace where
  nsType : String
  path : String
deriving DecidableEq

/-- `namespaceValid` (validate.go:389-402): the switch on `ns.Type`. -/
def namespaceValid (ns : LinuxNamespace) : Bool :=
  ns.nsType == PIDNamespace || ns.nsType == NetworkNamespace ||
  ns.nsType == MountNamespace || ns.nsType == IPCNamespace ||
  ns.nsType == UTSNamespace || ns.nsType == UserNamespace ||
  ns.nsType == CgroupNamespace

/-- A `Linux.Devices` entry; the source reads `Type`, `Major`, `Minor`
(`Major`/`Minor` are Go `int64`, modelled as `Int`). -/
structure LinuxDevice where
  dtype : String
  major : Int
  minor : Int
deriving DecidableEq

/-- `deviceValid` (validate.go:404-423): switch on the device kind with
the per-kind `Major`/`Minor` constraints. -/
def deviceValid (d : LinuxDevice) : Bool :=
  match d.dtype with
  | "b" => true
  | "c" => true
  | "u" =>
    if d.major ≤ 0 then false
    else if d.minor ≤ 0 then false
    else true
  | "p" =>
    if d.major > 0 ∨ d.minor > 0 then false
    else true
  | _ => false

example : deviceValid (LinuxDevice.mk "p" 0 0) = true := by decide
example : deviceValid (LinuxDevice.mk "p" 1 0) = false := by decide
example : deviceValid (LinuxDevice.mk "p" (-1) 0) = true := by decide
example : deviceValid (LinuxDevice.mk "c" 0 0) = true := by decide
example : deviceValid (LinuxDevice.mk "u" 0 1) = false := by decide
example : deviceValid (LinuxDevice.mk "x" 1 1) = false := by decide

/-! ## Seccomp (validate.go:322-353, 425-458) -/

/-- Seccomp action constants of the runtime-spec package. -/
def seccompActions : List String :=
  ["SCMP_ACT_KILL", "SCMP_ACT_TRAP", "SCMP_ACT_ERRNO",
   "SCMP_ACT_TRACE", "SCMP_ACT_ALLOW"]

/-- Seccomp comparison-operator constants of the runtime-spec package. -/
def seccompOps : List String :=
  ["SCMP_CMP_NE", "SCMP_CMP_LT", "SCMP_CMP_LE", "SCMP_CMP_EQ",
   "SCMP_CMP_GE", "SCMP_CMP_GT", "SCMP_CMP_MASKED_EQ"]

/-- Seccomp architecture constants of the runtime-spec package. -/
def seccompArches : List String :=
  ["SCMP_ARCH_X86", "SCMP_ARCH_X86_64", "SCMP_ARCH_X32", "SCMP_ARCH_ARM",
   "SCMP_ARCH_AARCH64", "SCMP_ARCH_MIPS", "SCMP_ARCH_MIPS64",
   "SCMP_ARCH_MIPS64N32", "SCMP_ARCH_MIPSEL", "SCMP_ARCH_MIPSEL64",
   "SCMP_ARCH_MIPSEL64N32", "SCMP_ARCH_PPC", "SCMP_ARCH_PPC64",
   "SCMP_ARCH_PPC64LE", "SCMP_ARCH_S390", "SCMP_ARCH_S390X"]

/-- A `Seccomp.Syscalls[i].Args[j]` entry; the source reads `Op`. -/
structure SeccompArg where
  op : String
deriving DecidableEq

/-- A `Seccomp.Syscalls[i]` entry; the source reads `Action` and `Args`. -/
structure SeccompSyscall where
  action : String
  args : List SeccompArg
deriving DecidableEq

/-- The `Seccomp` policy: `{DefaultAction, Architectures, Syscalls}`. -/
structure Seccomp where
  defaultAction : String
  architectures : List String
  syscalls : List SeccompSyscall
deriving DecidableEq

/-- `seccompActionValid` (validate.go:425-437): empty action or one of
the five action constants. -/
def seccompActionValid (secc : String) : Bool :=
  secc == "" || seccompActions.contains secc

/-- `syscallValid` (validate.go:439-458). -/
def syscallValid (s : SeccompSyscall) : Bool :=
  seccompActionValid s.action &&
  s.args.all (fun arg => seccompOps.contains arg.op)

/-- `checkSeccomp` (validate.go:322-353), fail-fast. -/
def checkSeccomp (s : Seccomp) : Except String Unit :=
  if !seccompActionValid s.defaultAction then
    .error ("seccomp defaultAction " ++ s.defaultAction ++ " is invalid.")
  else
    match s.syscalls.find? (fun sc => !syscallValid sc) with
    | some sc => .error ("syscall " ++ sc.action ++ " is invalid.")
    | none =>
      match s.architectures.find? (fun a => !seccompArches.contains a) with
      | some a => .error ("seccomp architecture " ++ a ++ " is invalid")
      | none => .ok ()

/-! ## Filesystem state

The validator probes the filesystem (`os.Stat`, `os.Open`).  A fixed
filesystem state is modelled explicitly: which paths stat successfully,
which have an executable bit, and the line contents of
`/proc/filesystems` (`none` models a failing `os.Open`). -/

structure FSState where
  fileExists : String → Bool
  fileExecutable : String → Bool
  procFilesystems : Option (List String)

/-! ## `checkProcess` (validate.go:164-195) -/

/-- A `Process.Rlimits` entry; the source reads `Type`. -/
structure Rlimit where
  rtype : String
deriving DecidableEq

/-- The `Process` fields the validator reads. -/
structure GoProcess where
  cwd : String
  env : List String
  capabilities : List String
  rlimits : List Rlimit
  apparmorProfile : String
deriving DecidableEq

/-- The profile path `path.Join(rootfs, etc-apparmor-dir, profile)`;
`path.Join` also cleans the joined path, which no claim exercises. -/
def apparmorPath (rootfs profile : String) : String :=
  rootfs ++ "/etc/apparmor.d/" ++ profile

/-- `checkProcess` (validate.go:164-195), fail-fast: absolute `Cwd`,
every `Env` entry `envValid`, capability and rlimit whitelists, and in
any mode a stat of the AppArmor profile when one is named. -/
def checkProcess (process : GoProcess) (rootfs : String) (fs : FSState) :
    Except String Unit :=
  if !pathIsAbs process.cwd then
    .error ("cwd " ++ process.cwd ++ " is not an absolute path")
  else
    match process.env.find? (fun env => !envValid env) with
    | some env =>
      .error ("env " ++ env ++ " should be in the form of key=value. " ++
        "The left hand side must consist solely of letters, digits, and underscores.")
    | none =>
      match process.capabilities.find? (fun c => !capValid c) with
      | some c => .error ("capability " ++ c ++ " is not valid, man capabilities(7)")
      | none =>
        match process.rlimits.find? (fun r => !rlimitValid r.rtype) with
        | some r => .error ("rlimit type " ++ r.rtype ++ " is invalid.")
        | none =>
          if process.apparmorProfile.length > 0 &&
              !(fs.fileExists (apparmorPath rootfs process.apparmorProfile)) then
            .error ("stat " ++ apparmorPath rootfs process.apparmorProfile ++
              ": no such file or directory")
          else .ok ()

/-! ## `checkPlatform` (validate.go:110-132)

The Go map of valid OS/architecture combinations has distinct keys, so
iterating it in any order gives the same verdict; it is modelled as an
association list. -/

def validCombins : List (String × List String) :=
  [("darwin", ["386", "amd64", "arm", "arm64"]),
   ("dragonfly", ["amd64"]),
   ("freebsd", ["386", "amd64", "arm"]),
   ("linux", ["386", "amd64", "arm", "arm64", "ppc64", "ppc64le",
              "mips64", "mips64le"]),
   ("netbsd", ["386", "amd64", "arm"]),
   ("openbsd", ["386", "amd64", "arm"]),
   ("plan9", ["386", "amd64"]),
   ("solaris", ["amd64"]),
   ("windows", ["386", "amd64"])]

/-- The `Platform` fields: `{OS, Arch}`. -/
structure Platform where
  os : String
  arch : String
deriving DecidableEq

/-- `checkPlatform` (validate.go:110-132). -/
def checkPlatform (platform : Platform) : Except String Unit :=
  match validCombins.find? (fun combin => combin.1 == platform.os) with
  | some combin =>
    if combin.2.contains platform.arch then .ok ()
    else .error ("Combination of " ++ platform.os ++ " and " ++
      platform.arch ++ " is invalid.")
  | none =>
    .error ("Operation system " ++ platform.os ++
      " of the bundle is not supported yet.")

/-! ## `checkSemVer` (validate.go:100-108)

Modelled from the spec: the semantic-versioning grammar of the external
semver dependency (`semver.Parse`); the package source is not part of
this repository.  `strconv.ParseUint` overflow is modelled by the
explicit 64-bit bound. -/

/-- `hasLeadingZeroes` of the semver package. -/
def svLeadingZeroes (l : List Char) : Bool :=
  match l with
  | '0' :: _ :: _ => true
  | _ => false

/-- Decimal digits to a number (for the 64-bit range check). -/
def decDigitsToNat (l : List Char) : Nat :=
  l.foldl (fun acc c => acc * 10 + (c.toNat - 48)) 0

/-- A valid numeric component: digits only, no leading zeroes,
non-empty, and within `uint64`. -/
def svNumOk (l : List Char) : Bool :=
  l.all Char.isDigit && !svLeadingZeroes l && !l.isEmpty &&
  decDigitsToNat l < 2 ^ 64

/-- The character set of pre-release / build identifiers
(ASCII letters, digits and the hyphen). -/
def svAlphanum (c : Char) : Bool :=
  c.isAlpha || c.isDigit || c == '-'

/-- A valid pre-release identifier (`NewPRVersion`): non-empty; all
digits means a number without leading zeroes within `uint64`; otherwise
all characters alphanumeric-or-hyphen. -/
def svPROk (l : List Char) : Bool :=
  !l.isEmpty &&
  (if l.all Char.isDigit then
     !svLeadingZeroes l && decDigitsToNat l < 2 ^ 64
   else l.all svAlphanum)

/-- A valid build identifier: non-empty, alphanumeric-or-hyphen. -/
def svBuildOk (l : List Char) : Bool :=
  !l.isEmpty && l.all svAlphanum

/-- Go `strings.SplitN(s, sep, 3)` on character lists. -/
def splitN3 (sep : Char) (l : List Char) : List (List Char) :=
  match splitChars sep l with
  | a :: b :: c :: rest => [a, b, List.intercalate [sep] (c :: rest)]
  | parts => parts

/-- `semver.Parse` succeeds: `Major.Minor.Patch` with optional
`-prerelease` and `+build` suffixes of the patch component. -/
def semverParseOk (s : String) : Bool :=
  if s.length == 0 then false
  else
    match splitN3 '.' s.toList with
    | [major, minor, patchFull] =>
      svNumOk major && svNumOk minor &&
      (let patchAndPre := patchFull.takeWhile (fun c => c != '+')
       let buildOk :=
         match patchFull.dropWhile (fun c => c != '+') with
         | [] => true
         | _ :: after => (splitChars '.' after).all svBuildOk
       let patchStr := patchAndPre.takeWhile (fun c => c != '-')
       let preOk :=
         match patchAndPre.dropWhile (fun c => c != '-') with
         | [] => true
         | _ :: after => (splitChars '.' after).all svPROk
       buildOk && preOk && svNumOk patchStr)
    | _ => false

example : semverParseOk ("1.0.0") = true := by decide
example : semverParseOk ("9.9.9") = true := by decide
example : semverParseOk ("not-a-version") = false := by decide
example : semverParseOk ("1.0") = false := by decide
example : semverParseOk ("1.0.0-rc1") = true := by decide
example : semverParseOk ("1.0.0-rc1+build.2") = true := by decide
example : semverParseOk ("01.0.0") = false := by decide
example : semverParseOk ("1.0.0+") = false := by decide
example : semverParseOk ("") = false := by decide

/-- Modelled from the spec: the single supported specification version
(`rspec.Version` of the external runtime-spec dependency; the spec
names `1.0.0` as the supported version). -/
def rspecVersion : String := "1.0.0"

/-- `checkSemVer` (validate.go:100-108): parse, then require exact
equality with the supported version. -/
def checkSemVer (version : String) : Except String Unit :=
  if !semverParseOk version then
    .error (version ++ " is not valid SemVer")
  else if version != rspecVersion then
    .error ("internal error: validate currently only handles version " ++
      rspecVersion ++ ", but the supplied configuration targets " ++ version)
  else .ok ()

/-! ## Mounts (validate.go:197-252) -/

/-- One line of `/proc/filesystems`: split on tab, the second field
when present, the whole line otherwise. -/
def parseFilesystemLine (line : String) : String :=
  match splitChars '\t' line.toList with
  | _ :: second :: _ => String.mk second
  | [only] => String.mk only
  | [] => ""

/-- `supportedMountTypes` (validate.go:197-237).  Result mirrors the Go
`(map[string]bool, error)` pair: the supported-type set (`none` when no
set is derived) and the error.  The set is the key set of the Go map,
as a list. -/
def supportedMountTypes (os : String) (hostCheck : Bool)
    (procFilesystems : Option (List String)) :
    Option (List String) × Option String :=
  if os != "linux" && os != "windows" then (none, none)
  else if os == "windows" then (some ["ntfs"], none)
  else if hostCheck then
    match procFilesystems with
    | none => (none, some ("open /proc/filesystems: no such file or directory"))
    | some lines => (some (lines.map parseFilesystemLine ++ ["bind"]), none)
  else (none, none)

/-- A `Mounts` entry; the mount-type check reads `Type`. -/
structure Mount where
  mtype : String
deriving DecidableEq

/-- `checkMounts` (validate.go:239-252): fatal on a derivation error;
when a set was derived, every mount type must belong to it. -/
def checkMounts (mounts : List Mount) (os : String) (hostCheck : Bool)
    (procFilesystems : Option (List String)) : Except String Unit :=
  match supportedMountTypes os hostCheck procFilesystems with
  | (_, some err) => .error err
  | (none, none) => .ok ()
  | (some supportedTypes, none) =>
    match mounts.find? (fun mount => !supportedTypes.contains mount.mtype) with
    | some mount => .error ("Unsupported mount type " ++ mount.mtype)
    | none => .ok ()

/-! ## `checkLinux` (validate.go:255-320) -/

/-- A `Linux.UIDMappings` / `GIDMappings` entry (`uint32` fields,
modelled as `Nat`; only the sequence length is read). -/
structure IDMapping where
  hostID : Nat
  containerID : Nat
  size : Nat
deriving DecidableEq

/-- The `Linux` fields the validator reads.  `Sysctl` is a Go
`map[string]string`, modelled as an association list in iteration
order. -/
structure Linux where
  uidMappings : List IDMapping
  gidMappings : List IDMapping
  namespaces : List LinuxNamespace
  sysctl : List (String × String)
  devices : List LinuxDevice
  seccomp : Option Seccomp
  rootfsPropagation : String
deriving DecidableEq

/-- The four newly-created-namespace flags of `checkLinux`
(`utsExists`, `ipcExists`, `mountExists`, `netExists`). -/
structure NsFlags where
  uts : Bool
  ipc : Bool
  mount : Bool
  net : Bool
deriving DecidableEq

/-- All four flags start out false (validate.go:256-259). -/
def initNsFlags : NsFlags := NsFlags.mk false false false false

/-- One iteration of the namespace loop body for a valid namespace
(validate.go:271-281): an empty path marks its kind newly created. -/
def nsFlagsStep (f : NsFlags) (ns : LinuxNamespace) : NsFlags :=
  if ns.path.length == 0 then
    if ns.nsType == UTSNamespace then { f with uts := true }
    else if ns.nsType == IPCNamespace then { f with ipc := true }
    else if ns.nsType == NetworkNamespace then { f with net := true }
    else if ns.nsType == MountNamespace then { f with mount := true }
    else f
  else f

/-- The namespace loop (validate.go:268-282): fatal on an invalid
namespace, otherwise accumulate the newly-created flags. -/
def nsLoop : List LinuxNamespace → NsFlags → Except String NsFlags
  | [], f => .ok f
  | ns :: rest, f =>
    if !namespaceValid ns then
      .error ("namespace " ++ ns.nsType ++ " is invalid.")
    else nsLoop rest (nsFlagsStep f ns)

/-- The sysctl loop (validate.go:284-293): `net.` keys need a new
Network namespace; `fs.mqueue.` keys need new Mount and IPC
namespaces. -/
def sysctlLoop (flags : NsFlags) : List (String × String) → Except String Unit
  | [] => .ok ()
  | (k, _) :: rest =>
    if goHasPfx k ("net.") && !flags.net then
      .error ("Sysctl " ++ k ++
        " requires a new Network namespace to be specified as well")
    else if goHasPfx k ("fs.mqueue.") && (!flags.mount || !flags.ipc) then
      .error ("Sysctl " ++ k ++
        " requires a new IPC namespace and Mount namespace to be specified as well")
    else sysctlLoop flags rest

/-- The `RootfsPropagation` switch (validate.go:309-319). -/
def rootfsPropagationValid (mode : String) : Bool :=
  mode == "" || mode == "private" || mode == "rprivate" || mode == "slave" ||
  mode == "rslave" || mode == "shared" || mode == "rshared"

/-- `checkLinux` (validate.go:255-320), fail-fast, in source order:
mapping caps, namespaces, sysctl dependencies, hostname dependency,
devices, seccomp, rootfs propagation. -/
def checkLinux (lx : Linux) (platformOS : String) (hostname : String) :
    Except String Unit :=
  if lx.uidMappings.length > 5 then
    .error ("Only 5 UID mappings are allowed (linux kernel restriction).")
  else if lx.gidMappings.length > 5 then
    .error ("Only 5 GID mappings are allowed (linux kernel restriction).")
  else
    match nsLoop lx.namespaces initNsFlags with
    | .error e => .error e
    | .ok flags =>
      match sysctlLoop flags lx.sysctl with
      | .error e => .error e
      | .ok () =>
        if platformOS == "linux" && !flags.uts && hostname != "" then
          .error ("On Linux, hostname requires a new UTS namespace to be specified as well")
        else
          match lx.devices.find? (fun d => !deviceValid d) with
          | some d => .error ("device " ++ d.dtype ++ " is invalid.")
          | none =>
            match lx.seccomp with
            | some s =>
              (match checkSeccomp s with
               | .error e => .error e
               | .ok () =>
                 if !rootfsPropagationValid lx.rootfsPropagation then
                   .error ("rootfsPropagation must be empty or one of private|rprivate|slave|rslave|shared|rshared")
                 else .ok ())
            | none =>
              if !rootfsPropagationValid lx.rootfsPropagation then
                .error ("rootfsPropagation must be empty or one of private|rprivate|slave|rslave|shared|rshared")
              else .ok ()

/-! ## Hooks (validate.go:134-162) -/

/-- A `Hook` entry: `{Path, Args, Env}`. -/
structure Hook where
  path : String
  args : List String
  env : List String
deriving DecidableEq

/-- The `Hooks` record: the three event phases. -/
structure Hooks where
  prestart : List Hook
  poststart : List Hook
  poststop : List Hook
deriving DecidableEq

/-- `checkEventHooks` (validate.go:140-162): absolute path; in
host-inspection mode the hook must stat and be executable; every hook
environment entry must be `envValid`. -/
def checkEventHooks (hookType : String) (hooks : List Hook)
    (hostCheck : Bool) (fs : FSState) : Except String Unit :=
  match hooks with
  | [] => .ok ()
  | hook :: rest =>
    if !pathIsAbs hook.path then
      .error ("The " ++ hookType ++ " hook " ++ hook.path ++ ": is not absolute path")
    else if hostCheck && !(fs.fileExists hook.path) then
      .error ("Cannot find " ++ hookType ++ " hook: " ++ hook.path)
    else if hostCheck && !(fs.fileExecutable hook.path) then
      .error ("The " ++ hookType ++ " hook " ++ hook.path ++ ": is not executable")
    else
      match hook.env.find? (fun env => !envValid env) with
      | some env =>
        .error ("Env " ++ env ++ " for hook " ++ hook.path ++ " is in the invalid form.")
      | none => checkEventHooks hookType rest hostCheck fs

/-- `checkHooks` (validate.go:134-138). -/
def checkHooks (hooks : Hooks) (hostCheck : Bool) (fs : FSState) :
    Except String Unit :=
  match checkEventHooks ("pre-start") hooks.prestart hostCheck fs with
  | .error e => .error e
  | .ok () =>
    match checkEventHooks ("post-start") hooks.poststart hostCheck fs with
    | .error e => .error e
    | .ok () => checkEventHooks ("post-stop") hooks.poststop hostCheck fs

/-! ## The presence checker (validate.go:460-559)

`checkMandatory` walks the parsed configuration through Go reflection.
The reflected values are embedded as the inductive `GoVal`; field lists
and slice/map element lists are encoded by the `fcons`/`fnil` and
`vcons`/`vnil` constructors of the same inductive so that every
function below is plainly structurally recursive.

Kinds:
* `str` — a string field;
* `other` — numeric/boolean kinds, which the walker never checks;
* `ptrOther` — a pointer whose element type is not a struct;
* `slice`/`mapv` — a slice / map with its `IsNil` flag and elements
  (for a map, the values in iteration order);
* `structv` — a struct with its type name and fields;
* `ptrStructNil` / `ptrStructv` — a nil / non-nil pointer to struct.

A field (`fcons`) carries the field name and whether its json tag
contains `omitempty`. -/

inductive GoVal where
  | str (s : String)
  | other
  | ptrOther (isNil : Bool)
  | slice (isNil : Bool) (elems : GoVal)
  | mapv (isNil : Bool) (vals : GoVal)
  | structv (name : String) (fields : GoVal)
  | ptrStructNil
  | ptrStructv (name : String) (fields : GoVal)
  | vnil
  | vcons (head : GoVal) (tail : GoVal)
  | fnil
  | fcons (fname : String) (omitempty : Bool) (fval : GoVal) (tail : GoVal)
deriving DecidableEq

/-- `reflect.Value.Len` of an encoded element list. -/
def vLen : GoVal → Nat
  | .vcons _ tail => 1 + vLen tail
  | _ => 0

/-- The single-quote character (the message delimiter used by
`checkMandatoryUnit` and `checkMandatory`). -/
def quoteCh : String := String.singleton (Char.ofNat 39)

/-- The message `fmt.Sprintf` of validate.go:474/479/484/500 produces:
with a trailing period. -/
def emptyMsgDot (parent fname : String) : String :=
  quoteCh ++ parent ++ "." ++ fname ++ quoteCh ++ " should not be empty."

/-- The message `fmt.Sprintf` of validate.go:536 produces: without a
trailing period. -/
def emptyMsgNoDot (parent fname : String) : String :=
  quoteCh ++ parent ++ "." ++ fname ++ quoteCh ++ " should not be empty"

mutual

/-- `checkMandatory` (validate.go:521-553): dereference a non-nil
struct pointer, walk a struct, and report any non-struct argument
valid.  A nil struct pointer passed directly would make the Go code
dereference nil; the configuration model never produces one (struct
pointers occur only as struct fields, which `checkMandatoryFields`
intercepts), and it is modelled as vacuously valid. -/
def checkMandatory : GoVal → List String × Bool
  | .structv name fields => checkMandatoryFields name fields
  | .ptrStructv name fields => checkMandatoryFields name fields
  | _ => ([], true)
termination_by v => (sizeOf v, 0)

/-- The field loop of `checkMandatory` (validate.go:531-551): check
every field, appending the messages of each invalid one — no
short-circuit across fields. -/
def checkMandatoryFields : String → GoVal → List String × Bool
  | parent, .fcons fname omitempty fval tail =>
    let h := checkMandatoryOneField parent fname omitempty fval
    let t := checkMandatoryFields parent tail
    if h.2 then t else (h.1 ++ t.1, false)
  | _, _ => ([], true)
termination_by _ v => (sizeOf v, 0)

/-- The per-field dispatch of the `checkMandatory` loop body
(validate.go:533-549): a nil struct-pointer field of a mandatory field
is reported directly (without a trailing period in the message); a
struct or non-nil struct-pointer field is recursed into; anything else
goes to `checkMandatoryUnit`. -/
def checkMandatoryOneField : String → String → Bool → GoVal → List String × Bool
  | parent, fname, omitempty, .ptrStructNil =>
    if !omitempty then ([emptyMsgNoDot parent fname], false) else ([], true)
  | _, _, _, .structv name fields => checkMandatoryFields name fields
  | _, _, _, .ptrStructv name fields => checkMandatoryFields name fields
  | parent, fname, omitempty, fval => checkMandatoryUnit fval fname omitempty parent
termination_by _ _ _ v => (sizeOf v, 1)

/-- `checkMandatoryUnit` (validate.go:468-519): the `field.Kind()`
switch.  `mandatory` is the negation of the `omitempty` flag. -/
def checkMandatoryUnit : GoVal → String → Bool → String → List String × Bool
  | .ptrOther isNil, fname, omitempty, parent =>
    if !omitempty && isNil then ([emptyMsgDot parent fname], false)
    else ([], true)
  | .str s, fname, omitempty, parent =>
    if !omitempty && s.length == 0 then ([emptyMsgDot parent fname], false)
    else ([], true)
  | .slice isNil elems, fname, omitempty, parent =>
    if !omitempty && (isNil || vLen elems == 0) then
      ([emptyMsgDot parent fname], false)
    else checkMandatoryElems elems
  | .mapv isNil vals, fname, omitempty, parent =>
    if !omitempty && (isNil || vLen vals == 0) then
      ([emptyMsgDot parent fname], false)
    else checkMandatoryElems vals
  | _, _, _, _ => ([], true)
termination_by v _ _ _ => (sizeOf v, 0)

/-- The element loops of `checkMandatoryUnit` (validate.go:487-497 and
503-514): recurse into every element, appending the messages of each
invalid one. -/
def checkMandatoryElems : GoVal → List String × Bool
  | .vcons head tail =>
    let h := checkMandatory head
    let t := checkMandatoryElems tail
    if h.2 then t else (h.1 ++ t.1, false)
  | _ => ([], true)
termination_by v => (sizeOf v, 0)

end

/-- `checkMandatoryField` (validate.go:555-559): fatal when the walk
reports invalid, with the aggregated message list in the diagnostic
(Go renders the slice between square brackets). -/
def checkMandatoryField (v : GoVal) : Except String Unit :=
  let r := checkMandatory v
  if r.2 then .ok ()
  else .error ("Mandatory information missing: [" ++
    String.intercalate (" ") r.1 ++ "].")

/-! ## The spec-side presence walker (refinement reference for the
presence checker)

`allViolations` renders the specification prose of the presence
validator: walk the whole configuration tree and collect one message
per violated required field, with no short-circuit and no valid flag
(the aggregate is invalid exactly when the collection is non-empty).
Message texts are the ones the code emits. -/

mutual

/-- Every violation in a reflected value: struct (or pointed-to
struct) fields, recursively; nothing else can violate. -/
def allViolations : GoVal → List String
  | .structv name fields => allViolationsFields name fields
  | .ptrStructv name fields => allViolationsFields name fields
  | _ => []
termination_by v => (sizeOf v, 0)

/-- Every violation among the fields of a struct: the concatenation of
the violations of each field, in field order. -/
def allViolationsFields : String → GoVal → List String
  | parent, .fcons fname omitempty fval tail =>
    allViolationsOneField parent fname omitempty fval ++
    allViolationsFields parent tail
  | _, _ => []
termination_by _ v => (sizeOf v, 0)

/-- Every violation of a single field. -/
def allViolationsOneField : String → String → Bool → GoVal → List String
  | parent, fname, omitempty, .ptrStructNil =>
    if !omitempty then [emptyMsgNoDot parent fname] else []
  | _, _, _, .structv name fields => allViolationsFields name fields
  | _, _, _, .ptrStructv name fields => allViolationsFields name fields
  | parent, fname, omitempty, fval => allViolationsUnit fval fname omitempty parent
termination_by _ _ _ v => (sizeOf v, 1)

/-- Every violation of a non-struct field: a direct presence violation
of the field itself, or the violations of the elements of a slice or
map field. -/
def allViolationsUnit : GoVal → String → Bool → String → List String
  | .ptrOther isNil, fname, omitempty, parent =>
    if !omitempty && isNil then [emptyMsgDot parent fname] else []
  | .str s, fname, omitempty, parent =>
    if !omitempty && s.length == 0 then [emptyMsgDot parent fname] else []
  | .slice isNil elems, fname, omitempty, parent =>
    if !omitempty && (isNil || vLen elems == 0) then [emptyMsgDot parent fname]
    else allViolationsElems elems
  | .mapv isNil vals, fname, omitempty, parent =>
    if !omitempty && (isNil || vLen vals == 0) then [emptyMsgDot parent fname]
    else allViolationsElems vals
  | _, _, _, _ => []
termination_by v _ _ _ => (sizeOf v, 0)

/-- Every violation among slice or map elements. -/
def allViolationsElems : GoVal → List String
  | .vcons head tail => allViolations head ++ allViolationsElems tail
  | _ => []
termination_by v => (sizeOf v, 0)

end

/-! ## The validation driver (validate.go:90-98) -/

/-- The configuration fields the validator reads (`rspec.Spec`). -/
structure GoSpec where
  version : String
  platform : Platform
  process : GoProcess
  rootPath : String
  hostname : String
  mounts : List Mount
  linux : Linux
  hooks : Hooks
deriving DecidableEq

/-- A reflected string slice. -/
def reflectStrSlice (l : List String) : GoVal :=
  .slice l.isEmpty (l.foldr (fun s acc => .vcons (.str s) acc) .vnil)

/-- A reflected slice of struct values. -/
def reflectStructSlice (l : List GoVal) : GoVal :=
  .slice l.isEmpty (l.foldr (fun v acc => .vcons v acc) .vnil)

/-- Modelled from the spec: the reflected shape of the Configuration
tree handed to the presence checker (the struct layout and `omitempty`
markers live in the external runtime-spec dependency; the subset of
fields this model carries is reflected, required unless the spec marks
the field optional). -/
def reflectSpec (s : GoSpec) : GoVal :=
  .structv "Spec"
    (.fcons "Version" false (.str s.version)
    (.fcons "Platform" false
      (.structv "Platform"
        (.fcons "OS" false (.str s.platform.os)
        (.fcons "Arch" false (.str s.platform.arch) .fnil)))
    (.fcons "Process" false
      (.structv "Process"
        (.fcons "Cwd" false (.str s.process.cwd)
        (.fcons "Env" true (reflectStrSlice s.process.env)
        (.fcons "Capabilities" true (reflectStrSlice s.process.capabilities)
        (.fcons "Rlimits" true
          (reflectStructSlice (s.process.rlimits.map (fun r =>
            .structv "Rlimit" (.fcons "Type" false (.str r.rtype) .fnil))))
        (.fcons "ApparmorProfile" true (.str s.process.apparmorProfile) .fnil))))))
    (.fcons "Root" false
      (.structv "Root" (.fcons "Path" false (.str s.rootPath) .fnil))
    (.fcons "Hostname" true (.str s.hostname)
    (.fcons "Mounts" true
      (reflectStructSlice (s.mounts.map (fun m =>
        .structv "Mount" (.fcons "Type" false (.str m.mtype) .fnil))))
    (.fcons "Hooks" true
      (.structv "Hooks"
        (.fcons "Prestart" true
          (reflectStructSlice (s.hooks.prestart.map (fun h =>
            .structv "Hook"
              (.fcons "Path" false (.str h.path)
              (.fcons "Args" true (reflectStrSlice h.args)
              (.fcons "Env" true (reflectStrSlice h.env) .fnil))))))
        .fnil))
    (.fcons "Linux" true
      (.structv "Linux"
        (.fcons "Namespaces" true
          (reflectStructSlice (s.linux.namespaces.map (fun ns =>
            .structv "Namespace"
              (.fcons "Type" false (.str ns.nsType)
              (.fcons "Path" true (.str ns.path) .fnil)))))
        .fnil))
    .fnil))))))))

/-- `bundleValidate` (validate.go:90-98): the fixed check order.  The
presence walk runs first; each semantic check is fail-fast. -/
def bundleValidate (s : GoSpec) (rootfs : String) (fs : FSState)
    (hostCheck : Bool) : Except String Unit := do
  checkMandatoryField (reflectSpec s)
  checkSemVer s.version
  checkPlatform s.platform
  checkProcess s.process rootfs fs
  checkMounts s.mounts s.platform.os hostCheck fs.procFilesystems
  checkLinux s.linux s.platform.os s.hostname
  checkHooks s.hooks hostCheck fs

/-! ## Concrete fixtures for witnesses -/

/-- A filesystem state with no files and no readable
`/proc/filesystems`. -/
def emptyFS : FSState :=
  FSState.mk (fun _ => false) (fun _ => false) none

/-- A process whose environment holds an entry with an empty KEY. -/
def processEmptyKey : GoProcess :=
  GoProcess.mk "/" ["=value"] [] [] ""

/-- A well-formed process fixture. -/
def processOK : GoProcess :=
  GoProcess.mk "/" ["PATH=/bin"] [] [] ""

/-- A namespace list declaring a newly-created Network namespace, a
joined UTS namespace and a newly-created IPC and Mount namespace. -/
def nssFix : List LinuxNamespace :=
  [LinuxNamespace.mk "network" "", LinuxNamespace.mk "uts" "/proc/1/ns/uts",
   LinuxNamespace.mk "ipc" "", LinuxNamespace.mk "mount" ""]

/-- A Linux section with a `net.` sysctl key and the namespaces of
`nssFix`. -/
def linuxFix : Linux :=
  Linux.mk [] [] nssFix [("net.ipv4.ip_forward", "1")] [] none ""

/-- A complete configuration fixture. -/
def specFix : GoSpec :=
  GoSpec.mk "1.0.0" (Platform.mk "linux" "amd64") processOK "rootfs" ""
    [] linuxFix (Hooks.mk [] [] [])

/-! ## Helper lemmas about the string model -/

theorem splitChars_ne_nil (sep : Char) : ∀ l : List Char, splitChars sep l ≠ []
  | [] => by simp [splitChars]
  | c :: cs => by
    have ih := splitChars_ne_nil sep cs
    cases h : splitChars sep cs with
    | nil => exact absurd h ih
    | cons a t =>
      rw [splitChars, h]
      by_cases hc : c = sep <;> simp [hc]

theorem splitChars_append (sep : Char) (rest : List Char) :
    ∀ key : List Char, sep ∉ key →
      splitChars sep (key ++ sep :: rest) = key :: splitChars sep rest
  | [], _ => by
    rw [List.nil_append, splitChars]
    cases h : splitChars sep rest with
    | nil => exact absurd h (splitChars_ne_nil sep rest)
    | cons a t => simp
  | c :: key, hmem => by
    have hc : (c == sep) = false := by
      refine beq_eq_false_iff_ne.mpr (fun hcs => hmem ?_)
      exact hcs ▸ List.mem_cons_self c key
    have ih := splitChars_append sep rest key (fun h => hmem (List.mem_cons_of_mem c h))
    rw [List.cons_append, splitChars, ih]
    simp [hc]

theorem splitChars_headD (sep : Char) : ∀ l : List Char,
    (splitChars sep l).headD [] = l.takeWhile (fun c => c != sep)
  | [] => by simp [splitChars]
  | c :: cs => by
    have ih := splitChars_headD sep cs
    rw [splitChars]
    cases h : splitChars sep cs with
    | nil => exact absurd h (splitChars_ne_nil sep cs)
    | cons a t =>
      rw [h] at ih
      by_cases hc : c = sep
      · subst hc
        simp [List.takeWhile_cons]
      · simp only [List.headD_cons] at ih
        simp [hc, List.takeWhile_cons, ih]

theorem splitChars_two_iff (sep : Char) : ∀ l : List Char,
    2 ≤ (splitChars sep l).length ↔ sep ∈ l
  | [] => by simp [splitChars]
  | c :: cs => by
    have ih := splitChars_two_iff sep cs
    rw [splitChars]
    cases h : splitChars sep cs with
    | nil => exact absurd h (splitChars_ne_nil sep cs)
    | cons a t =>
      rw [h] at ih
      simp only [List.length_cons] at ih
      by_cases hc : c = sep
      · subst hc
        simp
      · have hcs : ¬ sep = c := fun hh => hc hh.symm
        simp [hc, hcs, List.mem_cons]
        constructor
        · intro hlen
          exact ih.mp (by omega)
        · intro hm
          have := ih.mpr hm
          omega

theorem space_not_env (c : Char) (h : isGoSpace c = true) : isEnvChar c = false := by
  simp [isGoSpace] at h
  rcases h with ((((((rfl | rfl) | rfl) | rfl) | rfl) | rfl) | rfl) | rfl <;> decide

theorem env_not_space (c : Char) (h : isEnvChar c = true) : isGoSpace c = false := by
  cases hs : isGoSpace c
  · rfl
  · rw [space_not_env c hs] at h
    exact absurd h (by simp)

theorem dropWhile_space_of_env (m : List Char) (hm : m.all isEnvChar = true) :
    m.dropWhile isGoSpace = m := by
  cases m with
  | nil => rfl
  | cons a t =>
    have ha : isEnvChar a = true := by
      simp [List.all_cons] at hm
      exact hm.1
    simp [List.dropWhile_cons, env_not_space a ha]

theorem goTrimSpace_all_env (l : List Char) (h : l.all isEnvChar = true) :
    goTrimSpace l = l := by
  unfold goTrimSpace
  rw [dropWhile_space_of_env l h,
      dropWhile_space_of_env l.reverse (by simpa using h),
      List.reverse_reverse]

/-! ## The presence checker refines the spec-side walker -/

theorem mandatory_refines_all :
    ∀ v : GoVal,
      (checkMandatory v = (allViolations v, (allViolations v).isEmpty))
    ∧ (∀ parent, checkMandatoryFields parent v =
        (allViolationsFields parent v, (allViolationsFields parent v).isEmpty))
    ∧ (∀ parent fname om, checkMandatoryOneField parent fname om v =
        (allViolationsOneField parent fname om v,
         (allViolationsOneField parent fname om v).isEmpty))
    ∧ (∀ fname om parent, checkMandatoryUnit v fname om parent =
        (allViolationsUnit v fname om parent,
         (allViolationsUnit v fname om parent).isEmpty))
    ∧ (checkMandatoryElems v = (allViolationsElems v, (allViolationsElems v).isEmpty)) := by
  intro v
  induction v with
  | str s =>
    refine ⟨?_, ?_, ?_, ?_, ?_⟩ <;> intros <;>
      simp [checkMandatory, checkMandatoryFields, checkMandatoryOneField,
        checkMandatoryUnit, checkMandatoryElems, allViolations,
        allViolationsFields, allViolationsOneField, allViolationsUnit,
        allViolationsElems] <;> split <;> simp
  | other =>
    refine ⟨?_, ?_, ?_, ?_, ?_⟩ <;> intros <;>
      simp [checkMandatory, checkMandatoryFields, checkMandatoryOneField,
        checkMandatoryUnit, checkMandatoryElems, allViolations,
        allViolationsFields, allViolationsOneField, allViolationsUnit,
        allViolationsElems]
  | ptrOther isNil =>
    refine ⟨?_, ?_, ?_, ?_, ?_⟩ <;> intros <;>
      simp [checkMandatory, checkMandatoryFields, checkMandatoryOneField,
        checkMandatoryUnit, checkMandatoryElems, allViolations,
        allViolationsFields, allViolationsOneField, allViolationsUnit,
        allViolationsElems] <;> split <;> simp
  | slice isNil elems ih =>
    obtain ⟨ih1, ih2, ih3, ih4, ih5⟩ := ih
    refine ⟨?_, ?_, ?_, ?_, ?_⟩ <;> intros <;>
      simp [checkMandatory, checkMandatoryFields, checkMandatoryOneField,
        checkMandatoryUnit, checkMandatoryElems, allViolations,
        allViolationsFields, allViolationsOneField, allViolationsUnit,
        allViolationsElems, ih5] <;> split <;> simp [ih5]
  | mapv isNil vals ih =>
    obtain ⟨ih1, ih2, ih3, ih4, ih5⟩ := ih
    refine ⟨?_, ?_, ?_, ?_, ?_⟩ <;> intros <;>
      simp [checkMandatory, checkMandatoryFields, checkMandatoryOneField,
        checkMandatoryUnit, checkMandatoryElems, allViolations,
        allViolationsFields, allViolationsOneField, allViolationsUnit,
        allViolationsElems, ih5] <;> split <;> simp [ih5]
  | structv name fields ih =>
    obtain ⟨ih1, ih2, ih3, ih4, ih5⟩ := ih
    refine ⟨?_, ?_, ?_, ?_, ?_⟩ <;> intros <;>
      simp [checkMandatory, checkMandatoryFields, checkMandatoryOneField,
        checkMandatoryUnit, checkMandatoryElems, allViolations,
        allViolationsFields, allViolationsOneField, allViolationsUnit,
        allViolationsElems, ih2]
  | ptrStructNil =>
    refine ⟨?_, ?_, ?_, ?_, ?_⟩ <;> intros <;>
      simp [checkMandatory, checkMandatoryFields, checkMandatoryOneField,
        checkMandatoryUnit, checkMandatoryElems, allViolations,
        allViolationsFields, allViolationsOneField, allViolationsUnit,
        allViolationsElems] <;> split <;> simp
  | ptrStructv name fields ih =>
    obtain ⟨ih1, ih2, ih3, ih4, ih5⟩ := ih
    refine ⟨?_, ?_, ?_, ?_, ?_⟩ <;> intros <;>
      simp [checkMandatory, checkMandatoryFields, checkMandatoryOneField,
        checkMandatoryUnit, checkMandatoryElems, allViolations,
        allViolationsFields, allViolationsOneField, allViolationsUnit,
        allViolationsElems, ih2]
  | vnil =>
    refine ⟨?_, ?_, ?_, ?_, ?_⟩ <;> intros <;>
      simp [checkMandatory, checkMandatoryFields, checkMandatoryOneField,
        checkMandatoryUnit, checkMandatoryElems, allViolations,
        allViolationsFields, allViolationsOneField, allViolationsUnit,
        allViolationsElems]
  | vcons head tail ihh iht =>
    obtain ⟨h1, h2, h3, h4, h5⟩ := ihh
    obtain ⟨t1, t2, t3, t4, t5⟩ := iht
    refine ⟨?_, ?_, ?_, ?_, ?_⟩ <;> intros <;>
      simp [checkMandatory, checkMandatoryFields, checkMandatoryOneField,
        checkMandatoryUnit, checkMandatoryElems, allViolations,
        allViolationsFields, allViolationsOneField, allViolationsUnit,
        allViolationsElems, h1, t5]
    · cases h : allViolations head <;> simp [h]
  | fnil =>
    refine ⟨?_, ?_, ?_, ?_, ?_⟩ <;> intros <;>
      simp [checkMandatory, checkMandatoryFields, checkMandatoryOneField,
        checkMandatoryUnit, checkMandatoryElems, allViolations,
        allViolationsFields, allViolationsOneField, allViolationsUnit,
        allViolationsElems]
  | fcons fname om fval tail ihv iht =>
    obtain ⟨v1, v2, v3, v4, v5⟩ := ihv
    obtain ⟨t1, t2, t3, t4, t5⟩ := iht
    refine ⟨?_, ?_, ?_, ?_, ?_⟩ <;> intros <;>
      simp [checkMandatory, checkMandatoryFields, checkMandatoryOneField,
        checkMandatoryUnit, checkMandatoryElems, allViolations,
        allViolationsFields, allViolationsOneField, allViolationsUnit,
        allViolationsElems, v3, t2]
    · cases h : allViolationsOneField _ fname om fval <;> simp [h]

/-- Every message the spec-side walker collects has one of the two
emitted shapes (with or without the trailing period). -/
theorem allViolations_message_shape :
    ∀ v : GoVal,
      (∀ m ∈ allViolations v,
        (∃ p f, m = emptyMsgDot p f) ∨ ∃ p f, m = emptyMsgNoDot p f)
    ∧ (∀ parent, ∀ m ∈ allViolationsFields parent v,
        (∃ p f, m = emptyMsgDot p f) ∨ ∃ p f, m = emptyMsgNoDot p f)
    ∧ (∀ parent fname om, ∀ m ∈ allViolationsOneField parent fname om v,
        (∃ p f, m = emptyMsgDot p f) ∨ ∃ p f, m = emptyMsgNoDot p f)
    ∧ (∀ fname om parent, ∀ m ∈ allViolationsUnit v fname om parent,
        (∃ p f, m = emptyMsgDot p f) ∨ ∃ p f, m = emptyMsgNoDot p f)
    ∧ (∀ m ∈ allViolationsElems v,
        (∃ p f, m = emptyMsgDot p f) ∨ ∃ p f, m = emptyMsgNoDot p f) := by
  intro v
  induction v with
  | str s =>
    have hunit : ∀ fname om parent,
        ∀ m ∈ allViolationsUnit (GoVal.str s) fname om parent,
        (∃ p f, m = emptyMsgDot p f) ∨ ∃ p f, m = emptyMsgNoDot p f := by
      intro fname om parent m hm
      simp only [allViolationsUnit] at hm
      split at hm
      · simp at hm
        subst hm
        exact Or.inl ⟨parent, fname, rfl⟩
      · simp at hm
    refine ⟨?_, ?_, ?_, ?_, ?_⟩
    · intro m hm
      simp [allViolations] at hm
    · intro parent m hm
      simp [allViolationsFields] at hm
    · intro parent fname om m hm
      simp only [allViolationsOneField] at hm
      exact hunit fname om parent m hm
    · exact hunit
    · intro m hm
      simp [allViolationsElems] at hm
  | other =>
    refine ⟨?_, ?_, ?_, ?_, ?_⟩
    · intro m hm
      simp [allViolations] at hm
    · intro parent m hm
      simp [allViolationsFields] at hm
    · intro parent fname om m hm
      simp [allViolationsOneField, allViolationsUnit] at hm
    · intro fname om parent m hm
      simp [allViolationsUnit] at hm
    · intro m hm
      simp [allViolationsElems] at hm
  | ptrOther isNil =>
    have hunit : ∀ fname om parent,
        ∀ m ∈ allViolationsUnit (GoVal.ptrOther isNil) fname om parent,
        (∃ p f, m = emptyMsgDot p f) ∨ ∃ p f, m = emptyMsgNoDot p f := by
      intro fname om parent m hm
      simp only [allViolationsUnit] at hm
      split at hm
      · simp at hm
        subst hm
        exact Or.inl ⟨parent, fname, rfl⟩
      · simp at hm
    refine ⟨?_, ?_, ?_, ?_, ?_⟩
    · intro m hm
      simp [allViolations] at hm
    · intro parent m hm
      simp [allViolationsFields] at hm
    · intro parent fname om m hm
      simp only [allViolationsOneField] at hm
      exact hunit fname om parent m hm
    · exact hunit
    · intro m hm
      simp [allViolationsElems] at hm
  | slice isNil elems ih =>
    obtain ⟨ih1, ih2, ih3, ih4, ih5⟩ := ih
    have hunit : ∀ fname om parent,
        ∀ m ∈ allViolationsUnit (GoVal.slice isNil elems) fname om parent,
        (∃ p f, m = emptyMsgDot p f) ∨ ∃ p f, m = emptyMsgNoDot p f := by
      intro fname om parent m hm
      simp only [allViolationsUnit] at hm
      split at hm
      · simp at hm
        subst hm
        exact Or.inl ⟨parent, fname, rfl⟩
      · exact ih5 m hm
    refine ⟨?_, ?_, ?_, ?_, ?_⟩
    · intro m hm
      simp [allViolations] at hm
    · intro parent m hm
      simp [allViolationsFields] at hm
    · intro parent fname om m hm
      simp only [allViolationsOneField] at hm
      exact hunit fname om parent m hm
    · exact hunit
    · intro m hm
      simp [allViolationsElems] at hm
  | mapv isNil vals ih =>
    obtain ⟨ih1, ih2, ih3, ih4, ih5⟩ := ih
    have hunit : ∀ fname om parent,
        ∀ m ∈ allViolationsUnit (GoVal.mapv isNil vals) fname om parent,
        (∃ p f, m = emptyMsgDot p f) ∨ ∃ p f, m = emptyMsgNoDot p f := by
      intro fname om parent m hm
      simp only [allViolationsUnit] at hm
      split at hm
      · simp at hm
        subst hm
        exact Or.inl ⟨parent, fname, rfl⟩
      · exact ih5 m hm
    refine ⟨?_, ?_, ?_, ?_, ?_⟩
    · intro m hm
      simp [allViolations] at hm
    · intro parent m hm
      simp [allViolationsFields] at hm
    · intro parent fname om m hm
      simp only [allViolationsOneField] at hm
      exact hunit fname om parent m hm
    · exact hunit
    · intro m hm
      simp [allViolationsElems] at hm
  | structv name fields ih =>
    obtain ⟨ih1, ih2, ih3, ih4, ih5⟩ := ih
    refine ⟨?_, ?_, ?_, ?_, ?_⟩
    · intro m hm
      simp only [allViolations] at hm
      exact ih2 name m hm
    · intro parent m hm
      simp [allViolationsFields] at hm
    · intro parent fname om m hm
      simp only [allViolationsOneField] at hm
      exact ih2 name m hm
    · intro fname om parent m hm
      simp [allViolationsUnit] at hm
    · intro m hm
      simp [allViolationsElems] at hm
  | ptrStructNil =>
    refine ⟨?_, ?_, ?_, ?_, ?_⟩
    · intro m hm
      simp [allViolations] at hm
    · intro parent m hm
      simp [allViolationsFields] at hm
    · intro parent fname om m hm
      simp only [allViolationsOneField] at hm
      split at hm
      · simp at hm
        subst hm
        exact Or.inr ⟨parent, fname, rfl⟩
      · simp at hm
    · intro fname om parent m hm
      simp [allViolationsUnit] at hm
    · intro m hm
      simp [allViolationsElems] at hm
  | ptrStructv name fields ih =>
    obtain ⟨ih1, ih2, ih3, ih4, ih5⟩ := ih
    refine ⟨?_, ?_, ?_, ?_, ?_⟩
    · intro m hm
      simp only [allViolations] at hm
      exact ih2 name m hm
    · intro parent m hm
      simp [allViolationsFields] at hm
    · intro parent fname om m hm
      simp only [allViolationsOneField] at hm
      exact ih2 name m hm
    · intro fname om parent m hm
      simp [allViolationsUnit] at hm
    · intro m hm
      simp [allViolationsElems] at hm
  | vnil =>
    refine ⟨?_, ?_, ?_, ?_, ?_⟩
    · intro m hm
      simp [allViolations] at hm
    · intro parent m hm
      simp [allViolationsFields] at hm
    · intro parent fname om m hm
      simp [allViolationsOneField, allViolationsUnit] at hm
    · intro fname om parent m hm
      simp [allViolationsUnit] at hm
    · intro m hm
      simp [allViolationsElems] at hm
  | vcons head tail ihh iht =>
    obtain ⟨h1, h2, h3, h4, h5⟩ := ihh
    obtain ⟨t1, t2, t3, t4, t5⟩ := iht
    refine ⟨?_, ?_, ?_, ?_, ?_⟩
    · intro m hm
      simp [allViolations] at hm
    · intro parent m hm
      simp [allViolationsFields] at hm
    · intro parent fname om m hm
      simp [allViolationsOneField, allViolationsUnit] at hm
    · intro fname om parent m hm
      simp [allViolationsUnit] at hm
    · intro m hm
      simp only [allViolationsElems] at hm
      rcases List.mem_append.mp hm with hm | hm
      · exact h1 m hm
      · exact t5 m hm
  | fnil =>
    refine ⟨?_, ?_, ?_, ?_, ?_⟩
    · intro m hm
      simp [allViolations] at hm
    · intro parent m hm
      simp [allViolationsFields] at hm
    · intro parent fname om m hm
      simp [allViolationsOneField, allViolationsUnit] at hm
    · intro fname om parent m hm
      simp [allViolationsUnit] at hm
    · intro m hm
      simp [allViolationsElems] at hm
  | fcons fname om fval tail ihv iht =>
    obtain ⟨v1, v2, v3, v4, v5⟩ := ihv
    obtain ⟨t1, t2, t3, t4, t5⟩ := iht
    refine ⟨?_, ?_, ?_, ?_, ?_⟩
    · intro m hm
      simp [allViolations] at hm
    · intro parent m hm
      simp only [allViolationsFields] at hm
      rcases List.mem_append.mp hm with hm | hm
      · exact v3 parent fname om m hm
      · exact t2 parent m hm
    · intro parent2 fname2 om2 m hm
      simp [allViolationsOneField, allViolationsUnit] at hm
    · intro fname2 om2 parent m hm
      simp [allViolationsUnit] at hm
    · intro m hm
      simp [allViolationsElems] at hm

/-! ## Helper lemmas for the namespace and sysctl loops -/

theorem strLenZero (s : String) : (s.length == 0) = true ↔ s = "" := by
  constructor
  · intro h
    have hl : s.length = 0 := by exact_mod_cast eq_of_beq h
    have hd : s.data = [] := List.eq_nil_of_length_eq_zero hl
    cases s
    simp only at hd
    subst hd
    decide
  · intro h
    subst h
    decide

theorem nsLoop_ok_foldl : ∀ (nss : List LinuxNamespace) (f flags : NsFlags),
    nsLoop nss f = .ok flags → flags = nss.foldl nsFlagsStep f
  | [], f, flags => by
    simp [nsLoop]
    intro h
    exact h.symm
  | ns :: rest, f, flags => by
    simp only [nsLoop, List.foldl_cons]
    split
    · intro h
      cases h
    · exact nsLoop_ok_foldl rest (nsFlagsStep f ns) flags

theorem nsFlagsStep_uts (f : NsFlags) (ns : LinuxNamespace) :
    (nsFlagsStep f ns).uts =
      (f.uts || (ns.path.length == 0 && ns.nsType == UTSNamespace)) := by
  unfold nsFlagsStep
  repeat' split
  all_goals simp_all [UTSNamespace, IPCNamespace, NetworkNamespace, MountNamespace]

theorem nsFlagsStep_ipc (f : NsFlags) (ns : LinuxNamespace) :
    (nsFlagsStep f ns).ipc =
      (f.ipc || (ns.path.length == 0 && ns.nsType == IPCNamespace)) := by
  unfold nsFlagsStep
  repeat' split
  all_goals simp_all [UTSNamespace, IPCNamespace, NetworkNamespace, MountNamespace]

theorem nsFlagsStep_mount (f : NsFlags) (ns : LinuxNamespace) :
    (nsFlagsStep f ns).mount =
      (f.mount || (ns.path.length == 0 && ns.nsType == MountNamespace)) := by
  unfold nsFlagsStep
  repeat' split
  all_goals simp_all [UTSNamespace, IPCNamespace, NetworkNamespace, MountNamespace]

theorem nsFlagsStep_net (f : NsFlags) (ns : LinuxNamespace) :
    (nsFlagsStep f ns).net =
      (f.net || (ns.path.length == 0 && ns.nsType == NetworkNamespace)) := by
  unfold nsFlagsStep
  repeat' split
  all_goals simp_all [UTSNamespace, IPCNamespace, NetworkNamespace, MountNamespace]

theorem foldl_nsFlags_uts : ∀ (nss : List LinuxNamespace) (f : NsFlags),
    (nss.foldl nsFlagsStep f).uts =
      (f.uts || nss.any (fun ns => ns.path.length == 0 && ns.nsType == UTSNamespace))
  | [], f => by simp
  | ns :: rest, f => by
    simp only [List.foldl_cons, List.any_cons, foldl_nsFlags_uts rest,
      nsFlagsStep_uts, Bool.or_assoc]

theorem foldl_nsFlags_ipc : ∀ (nss : List LinuxNamespace) (f : NsFlags),
    (nss.foldl nsFlagsStep f).ipc =
      (f.ipc || nss.any (fun ns => ns.path.length == 0 && ns.nsType == IPCNamespace))
  | [], f => by simp
  | ns :: rest, f => by
    simp only [List.foldl_cons, List.any_cons, foldl_nsFlags_ipc rest,
      nsFlagsStep_ipc, Bool.or_assoc]

theorem foldl_nsFlags_mount : ∀ (nss : List LinuxNamespace) (f : NsFlags),
    (nss.foldl nsFlagsStep f).mount =
      (f.mount || nss.any (fun ns => ns.path.length == 0 && ns.nsType == MountNamespace))
  | [], f => by simp
  | ns :: rest, f => by
    simp only [List.foldl_cons, List.any_cons, foldl_nsFlags_mount rest,
      nsFlagsStep_mount, Bool.or_assoc]

theorem foldl_nsFlags_net : ∀ (nss : List LinuxNamespace) (f : NsFlags),
    (nss.foldl nsFlagsStep f).net =
      (f.net || nss.any (fun ns => ns.path.length == 0 && ns.nsType == NetworkNamespace))
  | [], f => by simp
  | ns :: rest, f => by
    simp only [List.foldl_cons, List.any_cons, foldl_nsFlags_net rest,
      nsFlagsStep_net, Bool.or_assoc]

theorem newNS_any_iff (t : String) (nss : List LinuxNamespace) :
    (nss.any (fun ns => ns.path.length == 0 && ns.nsType == t)) = true ↔
      ∃ ns ∈ nss, ns.nsType = t ∧ ns.path = "" := by
  rw [List.any_eq_true]
  constructor
  · rintro ⟨ns, hns, hp⟩
    rw [Bool.and_eq_true] at hp
    exact ⟨ns, hns, eq_of_beq hp.2, (strLenZero ns.path).mp hp.1⟩
  · rintro ⟨ns, hns, ht, hp⟩
    refine ⟨ns, hns, ?_⟩
    rw [Bool.and_eq_true]
    exact ⟨(strLenZero ns.path).mpr hp, beq_iff_eq.mpr ht⟩

/-- The newly-created flags computed by a successful namespace loop,
as membership disjunctions. -/
theorem nsLoop_flags_characterization (nss : List LinuxNamespace)
    (flags : NsFlags) (h : nsLoop nss initNsFlags = .ok flags) :
    (flags.uts = true ↔ ∃ ns ∈ nss, ns.nsType = UTSNamespace ∧ ns.path = "")
  ∧ (flags.ipc = true ↔ ∃ ns ∈ nss, ns.nsType = IPCNamespace ∧ ns.path = "")
  ∧ (flags.mount = true ↔ ∃ ns ∈ nss, ns.nsType = MountNamespace ∧ ns.path = "")
  ∧ (flags.net = true ↔ ∃ ns ∈ nss, ns.nsType = NetworkNamespace ∧ ns.path = "") := by
  have hf := nsLoop_ok_foldl nss initNsFlags flags h
  subst hf
  refine ⟨?_, ?_, ?_, ?_⟩
  · rw [foldl_nsFlags_uts, show initNsFlags.uts = false from rfl,
      Bool.false_or, newNS_any_iff]
  · rw [foldl_nsFlags_ipc, show initNsFlags.ipc = false from rfl,
      Bool.false_or, newNS_any_iff]
  · rw [foldl_nsFlags_mount, show initNsFlags.mount = false from rfl,
      Bool.false_or, newNS_any_iff]
  · rw [foldl_nsFlags_net, show initNsFlags.net = false from rfl,
      Bool.false_or, newNS_any_iff]

/-- A successful sysctl loop enforces the two prefix rules for every
key it visited. -/
theorem sysctlLoop_ok : ∀ (l : List (String × String)) (flags : NsFlags),
    sysctlLoop flags l = .ok () → ∀ kv ∈ l,
      (goHasPfx kv.1 ("net.") = true → flags.net = true) ∧
      (goHasPfx kv.1 ("fs.mqueue.") = true →
        flags.mount = true ∧ flags.ipc = true)
  | [], _ => by
    intro _ kv hkv
    cases hkv
  | (k, v) :: rest, flags => by
    intro h kv hkv
    rw [sysctlLoop] at h
    by_cases h1 : (goHasPfx k ("net.") && !flags.net) = true
    · rw [if_pos h1] at h
      cases h
    · rw [if_neg h1] at h
      by_cases h2 : (goHasPfx k ("fs.mqueue.") && (!flags.mount || !flags.ipc)) = true
      · rw [if_pos h2] at h
        cases h
      · rw [if_neg h2] at h
        rcases List.mem_cons.mp hkv with rfl | hkv
        · constructor
          · intro hp
            by_contra hn
            exact h1 (by simp [hp, Bool.eq_false_iff.mpr hn])
          · intro hp
            by_contra hn
            rw [not_and_or] at hn
            refine h2 ?_
            simp only [hp, Bool.true_and]
            rcases hn with hn | hn <;> simp [Bool.eq_false_iff.mpr hn]
        · exact sysctlLoop_ok rest flags h kv hkv

/-! ## Claim theorems -/

/-- Claim C3 counterexample: the claim says a device of Kind p is
accepted if and only if Major and Minor are both zero, but the code
accepts the device of Kind p with Major equal to minus one (it only
rejects positive values). -/
theorem deviceValid_pipe_negative_counterexample :
    deviceValid (LinuxDevice.mk "p" (-1) 0) = true ∧ ((-1 : Int) = 0 → False) := by
  constructor
  · decide
  · intro h
    cases h

/-- Claim C3 (amended): the device validator accepts a device exactly
according to its Kind: Kind b or c imposes no Major/Minor constraint;
Kind u requires Major and Minor strictly positive; Kind p requires
Major and Minor non-positive (so, for non-negative device numbers,
exactly zero); any other Kind is rejected. -/
theorem deviceValid_characterization (d : LinuxDevice) :
    deviceValid d = true ↔
      (d.dtype = "b" ∨ d.dtype = "c" ∨
       (d.dtype = "u" ∧ 0 < d.major ∧ 0 < d.minor) ∨
       (d.dtype = "p" ∧ d.major ≤ 0 ∧ d.minor ≤ 0)) := by
  rcases d with ⟨t, ma, mi⟩
  simp only [deviceValid]
  split
  · simp
  · simp
  · simp only [String.reduceEq, false_or, false_and, or_false, true_and]
    by_cases h1 : ma ≤ 0
    · rw [if_pos h1]
      constructor
      · intro hc
        cases hc
      · intro hc
        omega
    · rw [if_neg h1]
      by_cases h2 : mi ≤ 0
      · rw [if_pos h2]
        constructor
        · intro hc
          cases hc
        · intro hc
          omega
      · rw [if_neg h2]
        constructor
        · intro _
          omega
        · intro _
          rfl
  · simp only [String.reduceEq, false_or, false_and, or_false, true_and]
    by_cases h1 : ma > 0 ∨ mi > 0
    · rw [if_pos h1]
      constructor
      · intro hc
        cases hc
      · intro hc
        omega
    · rw [if_neg h1]
      constructor
      · intro _
        omega
      · intro _
        rfl
  · rename_i hb hc hu hp
    constructor
    · intro hfalse
      cases hfalse
    · intro hdisj
      rcases hdisj with h | h | ⟨h, _⟩ | ⟨h, _⟩ <;> exact absurd h (by assumption)

/-- Claim C5: the presence checker walks the entire configuration tree
without short-circuiting: its message list equals the full list of
violations of the tree, and its valid flag is true exactly when that
list is empty (so any violated required field makes the aggregate
invalid and contributes its message). -/
theorem checkMandatory_full_aggregation (v : GoVal) :
    (checkMandatory v).1 = allViolations v ∧
    ((checkMandatory v).2 = true ↔ allViolations v = []) := by
  have h := (mandatory_refines_all v).1
  rw [h]
  simp

/-- Claim C2 counterexample: the presence violation for a mandatory
nil struct-pointer field is reported without the trailing period, so
not every violation message has the claimed exact form. -/
theorem mandatory_nil_pointer_message_no_period :
    checkMandatory
        (GoVal.structv "Spec" (GoVal.fcons "Linux" false GoVal.ptrStructNil GoVal.fnil)) =
      ([emptyMsgNoDot "Spec" "Linux"], false) ∧
    emptyMsgNoDot "Spec" "Linux" ≠ emptyMsgDot "Spec" "Linux" := by
  constructor
  · rw [(mandatory_refines_all _).1]
    simp [allViolations, allViolationsFields, allViolationsOneField]
  · decide

/-- Claim C2 (amended): every presence-violation message has the form
quote parent dot fieldName quote followed by the words should not be
empty — with a trailing period for text, sequence, mapping and nil
non-struct-pointer fields, and without the trailing period for a
mandatory nil struct-pointer (optional-reference) field. -/
theorem mandatory_violation_message_forms :
    (∀ v : GoVal, ∀ m ∈ (checkMandatory v).1,
        (∃ p f, m = emptyMsgDot p f) ∨ ∃ p f, m = emptyMsgNoDot p f)
  ∧ (∀ parent fname, checkMandatoryUnit (GoVal.str "") fname false parent =
        ([emptyMsgDot parent fname], false))
  ∧ (∀ parent fname isNil,
      checkMandatoryUnit (GoVal.slice isNil GoVal.vnil) fname false parent =
        ([emptyMsgDot parent fname], false))
  ∧ (∀ parent fname isNil,
      checkMandatoryUnit (GoVal.mapv isNil GoVal.vnil) fname false parent =
        ([emptyMsgDot parent fname], false))
  ∧ (∀ parent fname, checkMandatoryUnit (GoVal.ptrOther true) fname false parent =
        ([emptyMsgDot parent fname], false))
  ∧ (∀ parent fname, checkMandatoryOneField parent fname false GoVal.ptrStructNil =
        ([emptyMsgNoDot parent fname], false)) := by
  refine ⟨?_, ?_, ?_, ?_, ?_, ?_⟩
  · intro v m hm
    rw [(mandatory_refines_all v).1] at hm
    simp only at hm
    exact (allViolations_message_shape v).1 m hm
  · intro parent fname
    simp [checkMandatoryUnit]
  · intro parent fname isNil
    simp [checkMandatoryUnit, vLen]
  · intro parent fname isNil
    simp [checkMandatoryUnit, vLen]
  · intro parent fname
    simp [checkMandatoryUnit]
  · intro parent fname
    simp [checkMandatoryOneField]

/-- Witness for the amended C2 theorem: a violated mandatory text
field yields the trailing-period form. -/
theorem mandatory_violation_message_forms_witness :
    (∃ p f, emptyMsgDot "Spec" "Version" = emptyMsgDot p f) ∨
      ∃ p f, emptyMsgDot "Spec" "Version" = emptyMsgNoDot p f :=
  mandatory_violation_message_forms.1
    (GoVal.structv "Spec" (GoVal.fcons "Version" false (GoVal.str "") GoVal.fnil))
    (emptyMsgDot "Spec" "Version")
    (by
      rw [(mandatory_refines_all _).1]
      simp [allViolations, allViolationsFields, allViolationsOneField,
        allViolationsUnit])

/-- Claim C9: in a successfully checked namespace sequence, each of
the four tracked kinds counts as newly created exactly when at least
one entry of that kind has an empty Path, irrespective of other
entries of the same kind or of entry order. -/
theorem namespace_newly_created_disjunction (nss : List LinuxNamespace)
    (flags : NsFlags) (h : nsLoop nss initNsFlags = .ok flags) :
    (flags.uts = true ↔ ∃ ns ∈ nss, ns.nsType = UTSNamespace ∧ ns.path = "")
  ∧ (flags.ipc = true ↔ ∃ ns ∈ nss, ns.nsType = IPCNamespace ∧ ns.path = "")
  ∧ (flags.mount = true ↔ ∃ ns ∈ nss, ns.nsType = MountNamespace ∧ ns.path = "")
  ∧ (flags.net = true ↔ ∃ ns ∈ nss, ns.nsType = NetworkNamespace ∧ ns.path = "") :=
  nsLoop_flags_characterization nss flags h

/-- Witness for C9: on the fixture namespace list the Network flag is
set (first entry), the UTS flag is not (its only entry has a non-empty
path). -/
theorem namespace_newly_created_disjunction_witness :
    (∃ ns ∈ nssFix, ns.nsType = NetworkNamespace ∧ ns.path = "") ∧
      ¬∃ ns ∈ nssFix, ns.nsType = UTSNamespace ∧ ns.path = "" := by
  have h := namespace_newly_created_disjunction nssFix
    (NsFlags.mk false true true true) (by rfl)
  constructor
  · exact h.2.2.2.mp rfl
  · intro hex
    have := h.1.mpr hex
    cases this

/-- Claim C4: a configuration the Linux check accepts satisfies the
three cross-field dependencies: every sysctl key with the net. prefix
requires a declared Network namespace with empty Path; every key with
the fs.mqueue. prefix requires declared Mount and IPC namespaces with
empty Path; and a non-empty Hostname on a linux platform requires a
declared UTS namespace with empty Path. -/
theorem checkLinux_cross_field_dependencies (lx : Linux) (os hostname : String)
    (h : checkLinux lx os hostname = .ok ()) :
    (∀ kv ∈ lx.sysctl, goHasPfx kv.1 ("net.") = true →
       ∃ ns ∈ lx.namespaces, ns.nsType = NetworkNamespace ∧ ns.path = "")
  ∧ (∀ kv ∈ lx.sysctl, goHasPfx kv.1 ("fs.mqueue.") = true →
       (∃ ns ∈ lx.namespaces, ns.nsType = MountNamespace ∧ ns.path = "")
     ∧ ∃ ns ∈ lx.namespaces, ns.nsType = IPCNamespace ∧ ns.path = "")
  ∧ (os = "linux" → hostname ≠ "" →
       ∃ ns ∈ lx.namespaces, ns.nsType = UTSNamespace ∧ ns.path = "") := by
  rw [checkLinux] at h
  by_cases h1 : lx.uidMappings.length > 5
  · rw [if_pos h1] at h
    cases h
  rw [if_neg h1] at h
  by_cases h2 : lx.gidMappings.length > 5
  · rw [if_pos h2] at h
    cases h
  rw [if_neg h2] at h
  cases hns : nsLoop lx.namespaces initNsFlags with
  | error e =>
    simp only [hns] at h
    cases h
  | ok flags =>
    simp only [hns] at h
    cases hsc : sysctlLoop flags lx.sysctl with
    | error e =>
      simp only [hsc] at h
      cases h
    | ok u =>
      cases u
      simp only [hsc] at h
      have hchar := nsLoop_flags_characterization lx.namespaces flags hns
      have hkeys := sysctlLoop_ok lx.sysctl flags hsc
      refine ⟨?_, ?_, ?_⟩
      · intro kv hkv hp
        exact hchar.2.2.2.mp ((hkeys kv hkv).1 hp)
      · intro kv hkv hp
        obtain ⟨hm, hi⟩ := (hkeys kv hkv).2 hp
        exact ⟨hchar.2.2.1.mp hm, hchar.2.1.mp hi⟩
      · intro hos hhn
        by_contra hnuts
        have huts : flags.uts = false := by
          cases hu : flags.uts
          · rfl
          · exact absurd (hchar.1.mp hu) hnuts
        have hcond : (os == "linux" && !flags.uts && hostname != "") = true := by
          simp [hos, huts, bne_iff_ne, hhn]
        rw [if_pos hcond] at h
        cases h

/-- Witness for C4: the fixture Linux section (one net. sysctl key,
Network namespace with empty path declared) passes the check, and the
theorem recovers the declared Network namespace. -/
theorem checkLinux_cross_field_dependencies_witness :
    ∃ ns ∈ linuxFix.namespaces, ns.nsType = NetworkNamespace ∧ ns.path = "" :=
  (checkLinux_cross_field_dependencies linuxFix ("linux") "" (by rfl)).1
    ("net.ipv4.ip_forward", "1") (by simp [linuxFix]) (by rfl)

/-- Claim C1 counterexample: the entry with an empty KEY passes
`envValid` (the character loop over the empty KEY is vacuous) and the
process check accepts a process whose environment contains it, so an
empty KEY does not fail the process check. -/
theorem empty_key_env_accepted :
    envValid ("=value") = true ∧
    checkProcess processEmptyKey "/rootfs" emptyFS = .ok () := by
  constructor
  · decide
  · rfl

/-- Claim C1 (amended): an environment entry is accepted exactly when
it contains at least one equals sign and every character of the
whitespace-trimmed segment before the first equals sign is a letter,
digit or underscore; the process check accepts only entries with that
property.  (An empty KEY satisfies it vacuously, so entries such as
the one of the counterexample pass.) -/
theorem process_env_key_characterization :
    (∀ e : String, envValid e = true ↔
      ('=' ∈ e.toList ∧
       (goTrimSpace (e.toList.takeWhile (fun c => c != '='))).all isEnvChar = true))
  ∧ (∀ p rootfs fs, checkProcess p rootfs fs = .ok () →
      ∀ e ∈ p.env, envValid e = true) := by
  constructor
  · intro e
    simp only [envValid]
    by_cases hlen : (splitChars '=' e.toList).length < 2
    · rw [if_pos hlen]
      constructor
      · intro h
        cases h
      · rintro ⟨hmem, _⟩
        have := (splitChars_two_iff '=' e.toList).mpr hmem
        omega
    · rw [if_neg hlen]
      have hmem : '=' ∈ e.toList :=
        (splitChars_two_iff '=' e.toList).mp (by omega)
      rw [splitChars_headD]
      constructor
      · intro hall
        exact ⟨hmem, hall⟩
      · rintro ⟨_, hall⟩
        exact hall
  · intro p rootfs fs h e he
    rw [checkProcess] at h
    by_cases hcwd : (!pathIsAbs p.cwd) = true
    · rw [if_pos hcwd] at h
      cases h
    · rw [if_neg hcwd] at h
      cases hf : p.env.find? (fun env => !envValid env) with
      | some env =>
        simp only [hf] at h
        cases h
      | none =>
        have := List.find?_eq_none.mp hf e he
        simpa using this

/-- Witness for the amended C1 theorem: a well-formed entry in an
accepted process is `envValid`. -/
theorem process_env_key_characterization_witness :
    envValid ("PATH=/bin") = true :=
  process_env_key_characterization.2 processOK "/rootfs" emptyFS (by rfl)
    ("PATH=/bin") (by simp [processOK])

/-- Claim C10: an environment entry whose VALUE part itself contains
equals signs is accepted whenever the text before the first equals
sign is a valid KEY — only that segment is checked, everything after
the first equals sign is unconstrained. -/
theorem env_value_unconstrained (key rest : String)
    (h : key.toList.all isEnvChar = true) :
    envValid (key ++ "=" ++ rest) = true := by
  have hdata : (key ++ "=" ++ rest).toList = key.toList ++ '=' :: rest.toList := by
    show (key ++ "=" ++ rest).data = key.data ++ '=' :: rest.data
    rw [String.data_append, String.data_append, List.append_assoc]
    rfl
  have hnk : '=' ∉ key.toList := by
    intro hm
    have := List.all_eq_true.mp h _ hm
    exact absurd this (by decide)
  simp only [envValid, hdata,
    splitChars_append '=' rest.toList key.toList hnk]
  have hne := splitChars_ne_nil '=' rest.toList
  have hlen : ¬ (key.toList :: splitChars '=' rest.toList).length < 2 := by
    cases hsc : splitChars '=' rest.toList with
    | nil => exact absurd hsc hne
    | cons a t => simp [hsc]
  rw [if_neg hlen]
  simp only [List.headD_cons]
  rw [goTrimSpace_all_env key.toList h]
  exact h

/-- Witness for C10: the entry A=B=C is accepted. -/
theorem env_value_unconstrained_witness : envValid ("A=B=C") = true :=
  env_value_unconstrained ("A") ("B=C") (by decide)

/-- Claim C6: the supported mount-type set is derived per OS — no set
and no failure for an OS that is neither linux nor windows; the fixed
single-entry set for windows; the parsed host filesystem types plus
bind for linux in host-inspection mode; no set and no failure for
linux without host inspection — and whenever a set is derived the
mounts check fails exactly when some mount type is not a member. -/
theorem mounts_supported_type_policy :
    (∀ os hostCheck procFS, os ≠ "linux" → os ≠ "windows" →
        supportedMountTypes os hostCheck procFS = (none, none)
      ∧ ∀ mounts, checkMounts mounts os hostCheck procFS = .ok ())
  ∧ (∀ hostCheck procFS,
        supportedMountTypes ("windows") hostCheck procFS = (some ["ntfs"], none))
  ∧ (∀ lines, supportedMountTypes ("linux") true (some lines) =
        (some (lines.map parseFilesystemLine ++ ["bind"]), none))
  ∧ (∀ procFS, supportedMountTypes ("linux") false procFS = (none, none)
      ∧ ∀ mounts, checkMounts mounts ("linux") false procFS = .ok ())
  ∧ (∀ os hostCheck procFS ts mounts,
        supportedMountTypes os hostCheck procFS = (some ts, none) →
        (checkMounts mounts os hostCheck procFS = .ok () ↔
          ∀ m ∈ mounts, ts.contains m.mtype = true)) := by
  refine ⟨?_, ?_, ?_, ?_, ?_⟩
  · intro os hc pf h1 h2
    have hcond : (os != "linux" && os != "windows") = true := by
      simp [bne_iff_ne, h1, h2]
    have hsup : supportedMountTypes os hc pf = (none, none) := by
      unfold supportedMountTypes
      rw [if_pos hcond]
    refine ⟨hsup, fun mounts => ?_⟩
    simp only [checkMounts, hsup]
  · intro hc pf
    rfl
  · intro lines
    rfl
  · intro pf
    exact ⟨rfl, fun mounts => rfl⟩
  · intro os hc pf ts mounts hsup
    simp only [checkMounts, hsup]
    constructor
    · intro h
      cases hf : mounts.find? (fun m => !ts.contains m.mtype) with
      | some m =>
        simp only [hf] at h
        cases h
      | none =>
        intro m hm
        have := List.find?_eq_none.mp hf m hm
        simpa using this
    · intro hall
      have hnone : mounts.find? (fun m => !ts.contains m.mtype) = none :=
        List.find?_eq_none.mpr (fun m hm => by rw [hall m hm]; decide)
      simp only [hnone]

/-- Witness for C6: an unrecognised OS derives no set and skips the
mounts without failing; on windows the membership criterion decides
the verdict. -/
theorem mounts_supported_type_policy_witness :
    supportedMountTypes ("darwin") true none = (none, none)
  ∧ checkMounts [Mount.mk "vfat"] ("darwin") true none = .ok ()
  ∧ (checkMounts [Mount.mk "ntfs"] ("windows") false none = .ok () ↔
      ∀ m ∈ [Mount.mk "ntfs"], (["ntfs"]).contains m.mtype = true) := by
  have h1 := mounts_supported_type_policy.1 ("darwin") true none
    (by decide) (by decide)
  have h5 := mounts_supported_type_policy.2.2.2.2 ("windows") false none
    ["ntfs"] [Mount.mk "ntfs"] (mounts_supported_type_policy.2.1 false none)
  exact ⟨h1.1, h1.2 [Mount.mk "vfat"], h5⟩

/-- Claim C7: the version check fails for a version tag that does not
parse as a semantic version, fails for a parseable tag different from
the single supported version, and passes exactly when the tag equals
the supported version. -/
theorem checkSemVer_exact_match :
    (∀ version, semverParseOk version = false → checkSemVer version ≠ .ok ())
  ∧ (∀ version, semverParseOk version = true → version ≠ rspecVersion →
      checkSemVer version ≠ .ok ())
  ∧ (∀ version, checkSemVer version = .ok () ↔ version = rspecVersion) := by
  have hparse : semverParseOk rspecVersion = true := by decide
  refine ⟨?_, ?_, ?_⟩
  · intro v hv
    simp [checkSemVer, hv]
  · intro v hv hne
    simp [checkSemVer, hv, bne_iff_ne, hne]
  · intro v
    constructor
    · intro h
      rw [checkSemVer] at h
      by_cases hp : semverParseOk v = true
      · rw [if_neg (by simp [hp])] at h
        by_cases he : v = rspecVersion
        · exact he
        · rw [if_pos (by simp [bne_iff_ne, he])] at h
          cases h
      · rw [if_pos (by simp [Bool.eq_false_iff.mpr hp])] at h
        cases h
    · intro h
      subst h
      simp [checkSemVer, hparse]

/-- Witness for C7: the supported version passes; a different valid
semantic version and an unparsable tag fail. -/
theorem checkSemVer_exact_match_witness :
    checkSemVer ("1.0.0") = .ok ()
  ∧ checkSemVer ("9.9.9") ≠ .ok ()
  ∧ checkSemVer ("not-a-version") ≠ .ok () := by
  refine ⟨?_, ?_, ?_⟩
  · exact (checkSemVer_exact_match.2.2 ("1.0.0")).mpr rfl
  · exact checkSemVer_exact_match.2.1 ("9.9.9") (by decide) (by decide)
  · exact checkSemVer_exact_match.1 ("not-a-version") (by decide)

/-- Claim C8: validation is deterministic — on equal configurations,
equal filesystem states and equal modes, two runs of the embedded
validation return equal verdicts and equal diagnostics.  (The
embedding is pure; Go map iteration order is carried inside the
configuration model as the fixed association-list order.) -/
theorem bundleValidate_deterministic (s1 s2 : GoSpec) (r1 r2 : String)
    (fs1 fs2 : FSState) (hc1 hc2 : Bool)
    (hs : s1 = s2) (hr : r1 = r2) (hf : fs1 = fs2) (hb : hc1 = hc2) :
    bundleValidate s1 r1 fs1 hc1 = bundleValidate s2 r2 fs2 hc2 := by
  subst hs
  subst hr
  subst hf
  subst hb
  rfl

/-- Witness for C8: two runs on the fixture configuration coincide. -/
theorem bundleValidate_deterministic_witness :
    bundleValidate specFix "rootfs" emptyFS false =
      bundleValidate specFix "rootfs" emptyFS false :=
  bundleValidate_deterministic specFix specFix "rootfs" "rootfs"
    emptyFS emptyFS false false rfl rfl rfl rfl
